import Mathlib

/-!
# Verification of the bitcoin spam-filter detection and scoring engine

A shallow embedding of the TypeScript detection core: the script decoder
(`TransactionParser`), the two pattern detectors
(`P2WSHFakeMultisigDetector`, `ChainedOpReturnDetector`) and the composite
`FilterEngine`.  Byte sequences are `List Nat`, JavaScript numbers carrying
scores and satoshi values are `ℚ` (respectively `Int` for output values),
and a JavaScript function that may throw is `_ → Except String _`.
Human-readable message strings are kept, but the numeric interpolation the
source performs inside them is omitted (no claim concerns it).
-/

namespace SpamFilter

/-- An element access that reports an out-of-bounds index instead of
returning a default; used to show the decoding routines never read past
the end of a byte sequence. -/
def getE (l : List Nat) (i : Nat) : Except String Nat :=
  if h : i < l.length then .ok (l.get ⟨i, h⟩) else .error "index out of bounds"

/-- `TransactionInput` from `types.ts`: witness is an optional ordered
sequence of byte sequences (the source stores them hex-encoded; the
encoding is transparent to every routine modelled here). -/
structure TransactionInput where
  txid : String
  vout : Nat
  scriptSig : Option (List Nat)
  witness : Option (List (List Nat))
  sequence : Nat
deriving Repr, DecidableEq

/-- `TransactionOutput` from `types.ts`. -/
structure TransactionOutput where
  value : Int
  scriptPubKey : List Nat
  scriptPubKeyType : Option String
deriving Repr, DecidableEq

/-- `ParsedTransaction` from `types.ts`. -/
structure ParsedTransaction where
  txid : String
  version : Nat
  locktime : Nat
  inputs : List TransactionInput
  outputs : List TransactionOutput
  weight : Nat
  size : Nat
  vsize : Nat
deriving Repr, DecidableEq

/-- The structured `details` payloads the two detectors attach to a
`DetectionResult` (the source types this field `any`). -/
inductive DetDetails where
  /-- no `details` field present -/
  | noDetails : DetDetails
  /-- OP_RETURN detector, magic/continuation branch: the accumulated
  object with optional chunk bookkeeping -/
  | opReturn (magic : Bool) (chunk : Option (Nat × Nat)) (cont : Bool) : DetDetails
  /-- OP_RETURN detector, oversize branch -/
  | opReturnSize (size : Nat) : DetDetails
  /-- P2WSH detector: one entry per suspicious input -/
  | p2wsh (entries : List (String × Nat × Nat × Nat)) : DetDetails
deriving Repr, DecidableEq

/-- `DetectionResult` from `types.ts`. -/
structure DetectionResult where
  detected : Bool
  confidence : ℚ
  reason : String
  details : DetDetails
deriving Repr, DecidableEq

/-- `FilterResult` from `types.ts`: both the engine verdict and the value a
custom callback returns. -/
structure FilterResult where
  accept : Bool
  score : ℚ
  detections : List DetectionResult
  message : String
deriving Repr, DecidableEq

/-- `FilterConfig` from `types.ts`. -/
structure FilterConfig where
  threshold : ℚ
  enableP2WSHDetection : Bool
  enableOpReturnDetection : Bool
deriving Repr, DecidableEq

namespace TransactionParser

/-- `TransactionParser.extractWitnessScript`: the last witness-stack item,
or nothing when the stack is empty. -/
def extractWitnessScript (witness : List (List Nat)) : Option (List Nat) :=
  if witness.length = 0 then none
  else some (witness.getD (witness.length - 1) [])

/-- Checked-access version of `extractWitnessScript`. -/
def extractWitnessScriptE (witness : List (List Nat)) : Except String (Option (List Nat)) :=
  if witness.length = 0 then .ok none
  else
    if h2 : witness.length - 1 < witness.length then
      .ok (some (witness.get ⟨witness.length - 1, h2⟩))
    else .error "index out of bounds"

/-- `TransactionParser.extractOpReturnData`: `none` unless the first byte
is `0x6a`; otherwise skip the push-opcode header that follows (one byte
for a direct push `0x01..0x4b`, two for PUSHDATA1, three for PUSHDATA2,
five for PUSHDATA4, nothing for any other byte) and return every
remaining byte of the script. -/
def extractOpReturnData (script : List Nat) : Option (List Nat) :=
  if script.length = 0 || !(script.getD 0 0 == 0x6a) then none
  else if script.length ≤ 1 then some []
  else
    let pushOpcode := script.getD 1 0
    let offset : Nat :=
      if 1 ≤ pushOpcode ∧ pushOpcode ≤ 0x4b then 2
      else if pushOpcode = 0x4c then 3
      else if pushOpcode = 0x4d then 4
      else if pushOpcode = 0x4e then 6
      else 1
    some (script.drop offset)

/-- Checked-access version of `extractOpReturnData`. -/
def extractOpReturnDataE (script : List Nat) : Except String (Option (List Nat)) :=
  if script.length = 0 then .ok none
  else do
    let b0 ← getE script 0
    if !(b0 == 0x6a) then .ok none
    else if script.length ≤ 1 then .ok (some [])
    else do
      let pushOpcode ← getE script 1
      let offset : Nat :=
        if 1 ≤ pushOpcode ∧ pushOpcode ≤ 0x4b then 2
        else if pushOpcode = 0x4c then 3
        else if pushOpcode = 0x4d then 4
        else if pushOpcode = 0x4e then 6
        else 1
      .ok (some (script.drop offset))

end TransactionParser

namespace P2WSHFakeMultisigDetector

/-- The zero-byte loop of `isLikelyFakePubkey`: walks the 32 data bytes
once, accumulating the total zero count, the current run of consecutive
zeros, and the longest such run.  Returns (zeroCount, maxConsecutiveZeros). -/
def zeroStats : List Nat → Nat → Nat → Nat → Nat × Nat
  | [], z, _, m => (z, m)
  | b :: rest, z, c, m =>
    if b = 0 then zeroStats rest (z + 1) (c + 1) (max m (c + 1))
    else zeroStats rest z 0 m

/-- The repeating-pattern loop of `isLikelyFakePubkey`: the number of
window positions `i < data.length - 3` at which four consecutive bytes
are identical. -/
def repeatCount (data : List Nat) : Nat :=
  ((List.range (data.length - 3)).filter (fun i =>
    data.getD i 0 = data.getD (i + 1) 0 ∧
    data.getD i 0 = data.getD (i + 2) 0 ∧
    data.getD i 0 = data.getD (i + 3) 0)).length

/-- `P2WSHFakeMultisigDetector.isLikelyFakePubkey`: a 33-byte candidate
with a compressed-key first byte is fake when its 32 data bytes show a
zero run longer than 4, more than 10 zeros in total, or more than 2
four-identical-byte windows. -/
def isLikelyFakePubkey (pubkey : List Nat) : Bool :=
  if pubkey.length ≠ 33 then false
  else
    let pfx := pubkey.getD 0 0
    if pfx ≠ 2 ∧ pfx ≠ 3 then false
    else
      let data := pubkey.drop 1
      let zs := zeroStats data 0 0 0
      if zs.2 > 4 ∨ zs.1 > 10 then true
      else decide (repeatCount data > 2)

/-- The `while` loop of `analyzeWitnessScript`, walking the witness script
from offset 1 while `i < script.length - 2`: a `0x21` opcode emits the 33
bytes that follow as one pubkey candidate and advances 34; `OP_1..OP_16`
and unknown bytes advance 1; `0xae` stops.  The loop is bounded by the
script length (each step advances the offset by at least one), embedded
here as structural recursion on a fuel of `script.length + 1`. -/
def scanPubkeysAux (script : List Nat) : Nat → Nat → List (List Nat)
  | 0, _ => []
  | fuel + 1, i =>
    if i < script.length - 2 then
      let opcode := script.getD i 0
      if opcode = 0x21 then
        ((script.drop (i + 1)).take 33) :: scanPubkeysAux script fuel (i + 34)
      else if 0x51 ≤ opcode ∧ opcode ≤ 0x60 then scanPubkeysAux script fuel (i + 1)
      else if opcode = 0xae then []
      else scanPubkeysAux script fuel (i + 1)
    else []

/-- The pubkey candidates collected by `analyzeWitnessScript`. -/
def scanPubkeys (script : List Nat) : List (List Nat) :=
  scanPubkeysAux script (script.length + 1) 1

/-- The fake-counting loop of `analyzeWitnessScript`: only candidates of
exactly 33 bytes whose first byte is `0x02` or `0x03` are tested with
`isLikelyFakePubkey`. -/
def countFake : List (List Nat) → Nat
  | [] => 0
  | pk :: rest =>
    (if pk.length = 33 ∧ (pk.getD 0 0 = 2 ∨ pk.getD 0 0 = 3) ∧
        isLikelyFakePubkey pk = true then 1 else 0) + countFake rest

/-- The record `analyzeWitnessScript` returns. -/
structure ScriptAnalysis where
  isSuspicious : Bool
  pubkeyCount : Nat
  fakePubkeyCount : Nat
  hasCheckmultisig : Bool
  scriptSize : Nat
deriving Repr, DecidableEq

/-- `P2WSHFakeMultisigDetector.analyzeWitnessScript`. -/
def analyzeWitnessScript (script : List Nat) : ScriptAnalysis :=
  if script.length = 0 then ⟨false, 0, 0, false, script.length⟩
  else
    let lastByte := script.getD (script.length - 1) 0
    if lastByte ≠ 0xae then ⟨false, 0, 0, false, script.length⟩
    else
      let pubkeys := scanPubkeys script
      let pkCount := pubkeys.length
      let fake := countFake pubkeys
      ⟨decide ((pkCount > 3 ∧ (fake : ℚ) > (pkCount : ℚ) * (1 / 2)) ∨ pkCount > 10),
       pkCount, fake, true, script.length⟩

/-- The input loop of `detect`, accumulating the suspicious-input count,
the count of inputs with at least 3 witness items (`totalP2WSH`, counted
before the script is analyzed), and the per-suspicious-input detail list
(txid, vout, pubkeyCount, fakePubkeyCount). -/
def detectLoop :
    List TransactionInput → Nat → Nat → List (String × Nat × Nat × Nat) →
    Nat × Nat × List (String × Nat × Nat × Nat)
  | [], s, t, d => (s, t, d)
  | inp :: rest, s, t, d =>
    match inp.witness with
    | none => detectLoop rest s t d
    | some w =>
      if w.length < 3 then detectLoop rest s t d
      else
        match TransactionParser.extractWitnessScript w with
        | none => detectLoop rest s t d
        | some ws =>
          let a := analyzeWitnessScript ws
          if a.isSuspicious then
            detectLoop rest (s + 1) (t + 1)
              (d ++ [(inp.txid, inp.vout, a.pubkeyCount, a.fakePubkeyCount)])
          else detectLoop rest s (t + 1) d

/-- `P2WSHFakeMultisigDetector.detect`. -/
def detect (tx : ParsedTransaction) : DetectionResult :=
  let r := detectLoop tx.inputs 0 0 []
  if r.1 = 0 then
    ⟨false, 0, "No suspicious P2WSH patterns found", .noDetails⟩
  else
    let confidence : ℚ := if r.2.1 > 0 then ((r.1 : ℚ) / (r.2.1 : ℚ)) * 100 else 0
    ⟨true, confidence,
     "Detected suspicious P2WSH CHECKMULTISIG patterns with fake pubkeys",
     .p2wsh r.2.2⟩

/-- Checked-access version of the `analyzeWitnessScript` pubkey walk. -/
def scanPubkeysAuxE (script : List Nat) : Nat → Nat → Except String (List (List Nat))
  | 0, _ => .ok []
  | fuel + 1, i =>
    if i < script.length - 2 then do
      let opcode ← getE script i
      if opcode = 0x21 then do
        let rest ← scanPubkeysAuxE script fuel (i + 34)
        .ok (((script.drop (i + 1)).take 33) :: rest)
      else if 0x51 ≤ opcode ∧ opcode ≤ 0x60 then scanPubkeysAuxE script fuel (i + 1)
      else if opcode = 0xae then .ok []
      else scanPubkeysAuxE script fuel (i + 1)
    else .ok []

/-- Checked-access version of the fake-counting loop (the source reads
`pubkey[0]` only after checking `pubkey.length === 33`). -/
def countFakeE : List (List Nat) → Except String Nat
  | [] => .ok 0
  | pk :: rest =>
    if pk.length = 33 then do
      let pfx ← getE pk 0
      let n ← countFakeE rest
      .ok ((if (pfx = 2 ∨ pfx = 3) ∧ isLikelyFakePubkey pk = true then 1 else 0) + n)
    else countFakeE rest

/-- Checked-access version of `analyzeWitnessScript`. -/
def analyzeWitnessScriptE (script : List Nat) : Except String ScriptAnalysis :=
  if script.length = 0 then .ok ⟨false, 0, 0, false, script.length⟩
  else do
    let lastByte ← getE script (script.length - 1)
    if lastByte ≠ 0xae then .ok ⟨false, 0, 0, false, script.length⟩
    else do
      let pubkeys ← scanPubkeysAuxE script (script.length + 1) 1
      let fake ← countFakeE pubkeys
      let pkCount := pubkeys.length
      .ok ⟨decide ((pkCount > 3 ∧ (fake : ℚ) > (pkCount : ℚ) * (1 / 2)) ∨ pkCount > 10),
           pkCount, fake, true, script.length⟩

end P2WSHFakeMultisigDetector

namespace ChainedOpReturnDetector

/-- The outputs `detect` collects: exactly those whose classification tag
is `nulldata`. -/
def opReturnOutputs (tx : ParsedTransaction) : List TransactionOutput :=
  tx.outputs.filter (fun o => o.scriptPubKeyType = some "nulldata")

/-- The magic-prefix loop of `detect`: over the collected outputs, note
whether any decoded payload starts `0x01 0xbc`, and keep chunk
bookkeeping (3rd and 4th payload bytes) from each such payload of length
at least 4 — a later, shorter magic payload leaves the bookkeeping from
an earlier one in place. -/
def scanMagic :
    List TransactionOutput → Bool → Option (Nat × Nat) → Bool × Option (Nat × Nat)
  | [], m, c => (m, c)
  | o :: rest, m, c =>
    match TransactionParser.extractOpReturnData o.scriptPubKey with
    | none => scanMagic rest m c
    | some d =>
      if 2 ≤ d.length ∧ d.getD 0 0 = 0x01 ∧ d.getD 1 0 = 0xbc then
        if 4 ≤ d.length then scanMagic rest true (some (d.getD 2 0, d.getD 3 0))
        else scanMagic rest true c
      else scanMagic rest m c

/-- The largest decoded payload length among the collected outputs
(an undecodable script counts as 0, as in the source). -/
def largestOpReturn (outs : List TransactionOutput) : Nat :=
  outs.foldl
    (fun acc o =>
      max acc (match TransactionParser.extractOpReturnData o.scriptPubKey with
               | some d => d.length
               | none => 0))
    0

/-- `ChainedOpReturnDetector.detect`. -/
def detect (tx : ParsedTransaction) : DetectionResult :=
  let ors := opReturnOutputs tx
  if ors.length = 0 then
    ⟨false, 0, "No OP_RETURN outputs found", .noDetails⟩
  else
    let magicScan := scanMagic ors false none
    let hasMagic := magicScan.1
    let hasContinuationOutput :=
      2 ≤ tx.outputs.length ∧ tx.outputs.any (fun o => 0 < o.value ∧ o.value < 15000)
    let hasChainPattern := hasContinuationOutput ∧ 0 < ors.length
    if hasMagic = true ∨ hasChainPattern then
      ⟨true, if hasMagic then 95 else 60,
       if hasMagic then "Detected knotwork magic prefix in OP_RETURN data"
       else "Detected chained OP_RETURN pattern with continuation output",
       .opReturn hasMagic magicScan.2 (decide hasChainPattern)⟩
    else
      let largest := largestOpReturn ors
      if 80 < largest then
        ⟨true, 40, "OP_RETURN data exceeds standard size", .opReturnSize largest⟩
      else
        ⟨false, 0, "No suspicious OP_RETURN patterns detected", .noDetails⟩

end ChainedOpReturnDetector

/-- A registered custom callback: a JavaScript function that is given the
transaction and either returns a `FilterResult` or throws. -/
def JSFilter := ParsedTransaction → Except String FilterResult

/-- `FilterEngine`: the immutable configuration plus the callbacks
registered with `addJSFilter`, in registration order. -/
structure FilterEngine where
  config : FilterConfig
  jsFilters : List JSFilter

namespace FilterEngine

/-- The callback loop of `evaluateTransaction`: each callback runs in
registration order; a non-accepting result is wrapped as a
`DetectionResult` whose confidence is the callback score, and the score
is accumulated.  The source wraps none of these calls in `try`/`catch`,
so a thrown exception propagates. -/
def applyJSFilters (tx : ParsedTransaction) :
    List JSFilter → List DetectionResult → ℚ →
    Except String (List DetectionResult × ℚ)
  | [], ds, s => .ok (ds, s)
  | f :: fs, ds, s =>
    match f tx with
    | .error e => .error e
    | .ok r =>
      if r.accept then applyJSFilters tx fs ds s
      else
        applyJSFilters tx fs
          (ds ++ [⟨true, r.score, r.message, .noDetails⟩]) (s + r.score)

/-- `FilterEngine.evaluateTransaction`. -/
def evaluateTransaction (e : FilterEngine) (tx : ParsedTransaction) :
    Except String FilterResult :=
  let step1 : List DetectionResult × ℚ :=
    if e.config.enableP2WSHDetection then
      let r := P2WSHFakeMultisigDetector.detect tx
      if r.detected then ([r], r.confidence) else ([], 0)
    else ([], 0)
  let step2 : List DetectionResult × ℚ :=
    if e.config.enableOpReturnDetection then
      let r := ChainedOpReturnDetector.detect tx
      if r.detected then (step1.1 ++ [r], step1.2 + r.confidence) else step1
    else step1
  match applyJSFilters tx e.jsFilters step2.1 step2.2 with
  | .error err => .error err
  | .ok (ds, totalScore) =>
    let shouldReject := e.config.threshold ≤ totalScore
    .ok ⟨!(decide shouldReject), totalScore, ds,
         if shouldReject then "Transaction rejected: spam score exceeds threshold"
         else "Transaction accepted: spam score below threshold"⟩

end FilterEngine

/-! ## Specification-side definitions

Named transcriptions of what the specification claims, to be compared
with the engine definitions above. -/

/-- A callback that never throws, as the engine's `addJSFilter` type
annotation assumes. -/
def liftPure (f : ParsedTransaction → FilterResult) : JSFilter :=
  fun tx => .ok (f tx)

/-- Spec-side: the detector contribution to the total score — the
confidence of each enabled detector whose result has `detected = true`. -/
def specDetectorScore (cfg : FilterConfig) (tx : ParsedTransaction) : ℚ :=
  (if cfg.enableP2WSHDetection ∧ (P2WSHFakeMultisigDetector.detect tx).detected then
     (P2WSHFakeMultisigDetector.detect tx).confidence
   else 0) +
  (if cfg.enableOpReturnDetection ∧ (ChainedOpReturnDetector.detect tx).detected then
     (ChainedOpReturnDetector.detect tx).confidence
   else 0)

/-- Spec-side: the callback contribution to the total score — the score of
every registered callback whose result has `accept = false`. -/
def specCallbackScore (filters : List (ParsedTransaction → FilterResult))
    (tx : ParsedTransaction) : ℚ :=
  (filters.map (fun f => if (f tx).accept then 0 else (f tx).score)).sum

/-- Spec-side: the `DetectionResult` wrappers the engine appends for
non-accepting callbacks, in registration order. -/
def wrapsOf (fs : List (ParsedTransaction → FilterResult))
    (tx : ParsedTransaction) : List DetectionResult :=
  fs.filterMap (fun f =>
    if (f tx).accept then none
    else some ⟨true, (f tx).score, (f tx).message, .noDetails⟩)

/-- Spec-side: an input belongs to the P2WSH population when its witness
stack has at least 3 items. -/
def qualifiesWitness (inp : TransactionInput) : Bool :=
  match inp.witness with
  | some w => 3 ≤ w.length
  | none => false

/-- Spec-side: an input is suspicious when it belongs to the P2WSH
population and the analysis of its last witness item flags it. -/
def inputSuspicious (inp : TransactionInput) : Bool :=
  match inp.witness with
  | none => false
  | some w =>
    if w.length < 3 then false
    else
      match TransactionParser.extractWitnessScript w with
      | none => false
      | some ws => (P2WSHFakeMultisigDetector.analyzeWitnessScript ws).isSuspicious

/-- Spec-side: the P2WSH denominator. -/
def totalP2WSHCount (tx : ParsedTransaction) : Nat :=
  tx.inputs.countP qualifiesWitness

/-- Spec-side: the P2WSH numerator. -/
def suspiciousInputCount (tx : ParsedTransaction) : Nat :=
  tx.inputs.countP inputSuspicious

/-- Spec-side: a collected output whose decoded payload starts with the
magic bytes `0x01 0xbc`. -/
def isMagicOutput (o : TransactionOutput) : Bool :=
  match TransactionParser.extractOpReturnData o.scriptPubKey with
  | some d => 2 ≤ d.length ∧ d.getD 0 0 = 0x01 ∧ d.getD 1 0 = 0xbc
  | none => false

/-- Spec-side: a collected output eligible for chunk bookkeeping — a magic
payload of length at least 4. -/
def chunkEligible (o : TransactionOutput) : Bool :=
  match TransactionParser.extractOpReturnData o.scriptPubKey with
  | some d => 2 ≤ d.length ∧ d.getD 0 0 = 0x01 ∧ d.getD 1 0 = 0xbc ∧ 4 ≤ d.length
  | none => false

/-- Spec-side: some collected output carries the magic prefix. -/
def hasMagicPayload (tx : ParsedTransaction) : Bool :=
  (ChainedOpReturnDetector.opReturnOutputs tx).any isMagicOutput

/-- Spec-side: the continuation pattern — at least two outputs, one of
them valued strictly between 0 and 15000 satoshis. -/
def hasContinuation (tx : ParsedTransaction) : Bool :=
  decide (2 ≤ tx.outputs.length) &&
  tx.outputs.any (fun o => decide (0 < o.value ∧ o.value < 15000))

/-- The chunk bookkeeping a detection result carries, if any. -/
def chunkOf (r : DetectionResult) : Option (Nat × Nat) :=
  match r.details with
  | .opReturn _ c _ => c
  | _ => none

/-! ## Concrete example inputs -/

/-- A CHECKMULTISIG-shaped witness script with four all-zero pubkeys
(every one classified fake). -/
def suspScript : List Nat :=
  [81, 33, 2, 0, 0, 0, 0, 0, 0, 0, 0, 0, 0, 0, 0, 0, 0, 0, 0, 0, 0, 0, 0, 0, 0, 0, 0, 0, 0, 0, 0, 0, 0, 0, 0, 33, 2, 0, 0, 0, 0, 0, 0, 0, 0, 0, 0, 0, 0, 0, 0, 0, 0, 0, 0, 0, 0, 0, 0, 0, 0, 0, 0, 0, 0, 0, 0, 0, 0, 33, 2, 0, 0, 0, 0, 0, 0, 0, 0, 0, 0, 0, 0, 0, 0, 0, 0, 0, 0, 0, 0, 0, 0, 0, 0, 0, 0, 0, 0, 0, 0, 0, 0, 33, 2, 0, 0, 0, 0, 0, 0, 0, 0, 0, 0, 0, 0, 0, 0, 0, 0, 0, 0, 0, 0, 0, 0, 0, 0, 0, 0, 0, 0, 0, 0, 0, 0, 84, 174]

/-- A CHECKMULTISIG-shaped witness script with exactly three all-zero
pubkeys. -/
def susp3Script : List Nat :=
  [81, 33, 2, 0, 0, 0, 0, 0, 0, 0, 0, 0, 0, 0, 0, 0, 0, 0, 0, 0, 0, 0, 0, 0, 0, 0, 0, 0, 0, 0, 0, 0, 0, 0, 0, 33, 2, 0, 0, 0, 0, 0, 0, 0, 0, 0, 0, 0, 0, 0, 0, 0, 0, 0, 0, 0, 0, 0, 0, 0, 0, 0, 0, 0, 0, 0, 0, 0, 0, 33, 2, 0, 0, 0, 0, 0, 0, 0, 0, 0, 0, 0, 0, 0, 0, 0, 0, 0, 0, 0, 0, 0, 0, 0, 0, 0, 0, 0, 0, 0, 0, 0, 0, 83, 174]

/-- A compressed-key candidate with 32 distinct non-zero data bytes. -/
def goodKey : List Nat := [2, 1, 2, 3, 4, 5, 6, 7, 8, 9, 10, 11, 12, 13, 14, 15, 16, 17, 18, 19, 20, 21, 22, 23, 24, 25, 26, 27, 28, 29, 30, 31, 32]

/-- A CHECKMULTISIG-shaped witness script with eleven distinct, non-zero,
non-repeating pubkeys. -/
def big11Script : List Nat :=
  [81, 33, 2, 1, 2, 3, 4, 5, 6, 7, 8, 9, 10, 11, 12, 13, 14, 15, 16, 17, 18, 19, 20, 21, 22, 23, 24, 25, 26, 27, 28, 29, 30, 31, 32, 33, 2, 1, 2, 3, 4, 5, 6, 7, 8, 9, 10, 11, 12, 13, 14, 15, 16, 17, 18, 19, 20, 21, 22, 23, 24, 25, 26, 27, 28, 29, 30, 31, 32, 33, 2, 1, 2, 3, 4, 5, 6, 7, 8, 9, 10, 11, 12, 13, 14, 15, 16, 17, 18, 19, 20, 21, 22, 23, 24, 25, 26, 27, 28, 29, 30, 31, 32, 33, 2, 1, 2, 3, 4, 5, 6, 7, 8, 9, 10, 11, 12, 13, 14, 15, 16, 17, 18, 19, 20, 21, 22, 23, 24, 25, 26, 27, 28, 29, 30, 31, 32, 33, 2, 1, 2, 3, 4, 5, 6, 7, 8, 9, 10, 11, 12, 13, 14, 15, 16, 17, 18, 19, 20, 21, 22, 23, 24, 25, 26, 27, 28, 29, 30, 31, 32, 33, 2, 1, 2, 3, 4, 5, 6, 7, 8, 9, 10, 11, 12, 13, 14, 15, 16, 17, 18, 19, 20, 21, 22, 23, 24, 25, 26, 27, 28, 29, 30, 31, 32, 33, 2, 1, 2, 3, 4, 5, 6, 7, 8, 9, 10, 11, 12, 13, 14, 15, 16, 17, 18, 19, 20, 21, 22, 23, 24, 25, 26, 27, 28, 29, 30, 31, 32, 33, 2, 1, 2, 3, 4, 5, 6, 7, 8, 9, 10, 11, 12, 13, 14, 15, 16, 17, 18, 19, 20, 21, 22, 23, 24, 25, 26, 27, 28, 29, 30, 31, 32, 33, 2, 1, 2, 3, 4, 5, 6, 7, 8, 9, 10, 11, 12, 13, 14, 15, 16, 17, 18, 19, 20, 21, 22, 23, 24, 25, 26, 27, 28, 29, 30, 31, 32, 33, 2, 1, 2, 3, 4, 5, 6, 7, 8, 9, 10, 11, 12, 13, 14, 15, 16, 17, 18, 19, 20, 21, 22, 23, 24, 25, 26, 27, 28, 29, 30, 31, 32, 33, 2, 1, 2, 3, 4, 5, 6, 7, 8, 9, 10, 11, 12, 13, 14, 15, 16, 17, 18, 19, 20, 21, 22, 23, 24, 25, 26, 27, 28, 29, 30, 31, 32, 91, 174]

/-- An input spending a suspicious P2WSH witness script. -/
def inpSusp : TransactionInput := ⟨"a", 0, none, some [[0], [0], suspScript], 0⟩

/-- An input with three witness items whose last item is not
CHECKMULTISIG-shaped (final byte `0xab`). -/
def inpPlain : TransactionInput := ⟨"b", 1, none, some [[0], [0], [0xab]], 0⟩

/-- One suspicious P2WSH input next to two inputs whose candidate witness
scripts fail the final-byte-`0xae` test. -/
def tx3 : ParsedTransaction :=
  ⟨"t3", 2, 0, [inpSusp, inpPlain, inpPlain], [⟨0, [0], none⟩], 0, 0, 0⟩

/-- A single `nulldata` output valued 5000 satoshis with a short
OP_RETURN payload and no magic prefix. -/
def tx4 : ParsedTransaction :=
  ⟨"t4", 2, 0, [⟨"i", 0, none, none, 0⟩],
   [⟨5000, [0x6a, 0x02, 0xaa, 0xbb], some "nulldata"⟩], 0, 0, 0⟩

/-- An output with no classification tag whose script begins `0x6a` and
carries a 100-byte payload. -/
def out5 : TransactionOutput :=
  ⟨0, [0x6a, 0x4c, 100] ++ List.replicate 100 0xaa, none⟩

/-- A transaction whose only output is `out5`. -/
def tx5 : ParsedTransaction :=
  ⟨"t5", 2, 0, [⟨"i", 0, none, none, 0⟩], [out5], 0, 0, 0⟩

/-- A plain transaction that triggers neither detector. -/
def txN : ParsedTransaction :=
  ⟨"n", 2, 0, [⟨"i", 0, none, none, 0⟩], [⟨1, [0], none⟩], 0, 0, 0⟩

/-- A transaction with one tagged OP_RETURN output whose payload starts
with the magic bytes `0x01 0xbc` and declares chunk 0 of 10. -/
def tx6 : ParsedTransaction :=
  ⟨"t6", 2, 0, [⟨"i", 0, none, none, 0⟩],
   [⟨0, [0x6a, 0x04, 0x01, 0xbc, 0x00, 0x0a], some "nulldata"⟩], 0, 0, 0⟩

/-! ## Helper lemmas -/

theorem getE_ok (l : List Nat) (i : Nat) (h : i < l.length) :
    getE l i = .ok (l.getD i 0) := by
  simp [getE, h, List.getD_eq_getElem]

theorem except_bind_ok {α β : Type} (a : α) (f : α → Except String β) :
    (do let x ← Except.ok a; f x) = f a := rfl

theorem extractOpReturnDataE_eq (s : List Nat) :
    TransactionParser.extractOpReturnDataE s = .ok (TransactionParser.extractOpReturnData s) := by
  match s with
  | [] => rfl
  | [b] =>
    by_cases hb : b = 0x6a <;>
      simp [TransactionParser.extractOpReturnDataE, TransactionParser.extractOpReturnData,
        getE, hb, Bind.bind, Except.bind]
  | b0 :: b1 :: rest =>
    by_cases hb : b0 = 0x6a <;>
      simp [TransactionParser.extractOpReturnDataE, TransactionParser.extractOpReturnData,
        getE, hb, Bind.bind, Except.bind]

theorem extractWitnessScriptE_eq (w : List (List Nat)) :
    TransactionParser.extractWitnessScriptE w = .ok (TransactionParser.extractWitnessScript w) := by
  unfold TransactionParser.extractWitnessScriptE TransactionParser.extractWitnessScript
  by_cases h0 : w.length = 0
  · simp [h0]
  · have hlt : w.length - 1 < w.length :=
      Nat.sub_lt (Nat.pos_of_ne_zero h0) Nat.one_pos
    simp [h0, hlt, List.getD_eq_getElem w [] hlt]

theorem scanPubkeysAuxE_eq (script : List Nat) (fuel : Nat) :
    ∀ i, P2WSHFakeMultisigDetector.scanPubkeysAuxE script fuel i =
      .ok (P2WSHFakeMultisigDetector.scanPubkeysAux script fuel i) := by
  induction fuel with
  | zero => intro i; rfl
  | succ fuel ih =>
    intro i
    unfold P2WSHFakeMultisigDetector.scanPubkeysAuxE P2WSHFakeMultisigDetector.scanPubkeysAux
    by_cases hc : i < script.length - 2
    · have hi : i < script.length := lt_of_lt_of_le hc (Nat.sub_le _ _)
      rw [if_pos hc, if_pos hc]
      simp only [getE_ok script i hi, except_bind_ok, ih]
      split_ifs <;> rfl
    · rw [if_neg hc, if_neg hc]

theorem countFakeE_eq :
    ∀ l, P2WSHFakeMultisigDetector.countFakeE l = .ok (P2WSHFakeMultisigDetector.countFake l) := by
  intro l
  induction l with
  | nil => rfl
  | cons pk rest ih =>
    unfold P2WSHFakeMultisigDetector.countFakeE P2WSHFakeMultisigDetector.countFake
    by_cases h33 : pk.length = 33
    · have h0 : 0 < pk.length := by omega
      rw [if_pos h33]
      simp only [getE_ok pk 0 h0, except_bind_ok, ih]
      simp [h33]
    · rw [if_neg h33]
      simp [h33, ih]

theorem analyzeWitnessScriptE_eq (script : List Nat) :
    P2WSHFakeMultisigDetector.analyzeWitnessScriptE script =
      .ok (P2WSHFakeMultisigDetector.analyzeWitnessScript script) := by
  unfold P2WSHFakeMultisigDetector.analyzeWitnessScriptE
    P2WSHFakeMultisigDetector.analyzeWitnessScript
  by_cases h0 : script.length = 0
  · simp [h0]
  · have hlt : script.length - 1 < script.length :=
      Nat.sub_lt (Nat.pos_of_ne_zero h0) Nat.one_pos
    rw [if_neg h0, if_neg h0]
    simp only [getE_ok script (script.length - 1) hlt, except_bind_ok,
      P2WSHFakeMultisigDetector.scanPubkeys, scanPubkeysAuxE_eq, countFakeE_eq]
    split_ifs <;> rfl

theorem half_lt_iff (a b : Nat) : ((b : ℚ) * (1 / 2) < (a : ℚ)) ↔ b < 2 * a := by
  rw [mul_one_div, div_lt_iff₀ (by norm_num : (0 : ℚ) < 2)]
  constructor
  · intro h
    have h2 : b < a * 2 := by exact_mod_cast h
    omega
  · intro h
    have h2 : b < a * 2 := by omega
    exact_mod_cast h2

theorem countFake_le (l : List (List Nat)) :
    P2WSHFakeMultisigDetector.countFake l ≤ l.length := by
  induction l with
  | nil => simp [P2WSHFakeMultisigDetector.countFake]
  | cons pk rest ih =>
    unfold P2WSHFakeMultisigDetector.countFake
    split_ifs <;> simp <;> omega

/-- The suspicion flag restated over integer arithmetic: the source
compares `fakePubkeyCount > pubkeyCount * 0.5` over rationals, which for
integer counts is `pubkeyCount < 2 * fakePubkeyCount`.  This form reduces
in the kernel, so concrete scripts can be evaluated. -/
theorem isSuspicious_eq (script : List Nat) :
    (P2WSHFakeMultisigDetector.analyzeWitnessScript script).isSuspicious =
      decide ((3 < (P2WSHFakeMultisigDetector.analyzeWitnessScript script).pubkeyCount ∧
        (P2WSHFakeMultisigDetector.analyzeWitnessScript script).pubkeyCount <
          2 * (P2WSHFakeMultisigDetector.analyzeWitnessScript script).fakePubkeyCount) ∨
        10 < (P2WSHFakeMultisigDetector.analyzeWitnessScript script).pubkeyCount) := by
  simp only [P2WSHFakeMultisigDetector.analyzeWitnessScript]
  split_ifs with h0 hae
  · simp
  · simp
  · rw [decide_eq_decide]
    constructor
    · rintro (⟨h1, h2⟩ | h)
      · exact Or.inl ⟨h1, (half_lt_iff _ _).mp h2⟩
      · exact Or.inr h
    · rintro (⟨h1, h2⟩ | h)
      · exact Or.inl ⟨h1, (half_lt_iff _ _).mpr h2⟩
      · exact Or.inr h

/-! ## Claim theorems -/

/-- C8: over every byte sequence — truncated, malformed or adversarial —
the OP_RETURN payload extraction, the witness-script extraction and the
P2WSH witness-script analysis are total: the checked-access runs, which
report any out-of-range index as an error, always succeed and return the
same well-formed result as the plain definitions. -/
theorem scriptDecoding_total :
    (∀ s : List Nat, TransactionParser.extractOpReturnDataE s =
        .ok (TransactionParser.extractOpReturnData s)) ∧
    (∀ w : List (List Nat), TransactionParser.extractWitnessScriptE w =
        .ok (TransactionParser.extractWitnessScript w)) ∧
    (∀ s : List Nat, P2WSHFakeMultisigDetector.analyzeWitnessScriptE s =
        .ok (P2WSHFakeMultisigDetector.analyzeWitnessScript s)) :=
  ⟨extractOpReturnDataE_eq, extractWitnessScriptE_eq, analyzeWitnessScriptE_eq⟩

/-- C6 counterexample: on `6a 01 aa bb` the push opcode declares one data
byte, yet the extractor returns both remaining bytes; on `6a 02 aa` the
script is truncated relative to the declared two bytes, yet the extractor
returns the one available byte rather than no data. -/
theorem extractOpReturnData_ignores_declared_length :
    TransactionParser.extractOpReturnData [0x6a, 0x01, 0xaa, 0xbb] = some [0xaa, 0xbb] ∧
    TransactionParser.extractOpReturnData [0x6a, 0x02, 0xaa] = some [0xaa] :=
  ⟨rfl, rfl⟩

/-- C6 amended: the extractor returns none unless the first byte is
`0x6a`; otherwise it skips the push-opcode header (the opcode byte for
direct pushes `0x01..0x4b`, the opcode plus 1/2/4 length bytes for
PUSHDATA1/2/4, nothing for any other byte) and returns every remaining
byte of the script, ignoring the declared push length: a truncated script
yields the bytes that are present, and trailing bytes beyond the declared
length are included. -/
theorem extractOpReturnData_returns_tail :
    (TransactionParser.extractOpReturnData [] = none) ∧
    (∀ s : List Nat, s.getD 0 0 ≠ 0x6a → TransactionParser.extractOpReturnData s = none) ∧
    (TransactionParser.extractOpReturnData [0x6a] = some []) ∧
    (∀ b rest, 1 ≤ b → b ≤ 0x4b →
      TransactionParser.extractOpReturnData (0x6a :: b :: rest) = some rest) ∧
    (∀ rest : List Nat,
      TransactionParser.extractOpReturnData (0x6a :: 0x4c :: rest) = some (rest.drop 1)) ∧
    (∀ rest : List Nat,
      TransactionParser.extractOpReturnData (0x6a :: 0x4d :: rest) = some (rest.drop 2)) ∧
    (∀ rest : List Nat,
      TransactionParser.extractOpReturnData (0x6a :: 0x4e :: rest) = some (rest.drop 4)) ∧
    (∀ b rest, b = 0 ∨ 0x4e < b →
      TransactionParser.extractOpReturnData (0x6a :: b :: rest) = some (b :: rest)) := by
  refine ⟨rfl, ?_, rfl, ?_, fun rest => rfl, fun rest => rfl, fun rest => rfl, ?_⟩
  · intro s h
    match s with
    | [] => rfl
    | a :: l => simp [TransactionParser.extractOpReturnData, List.getD] at h ⊢; simp [h]
  · intro b rest h1 h2
    simp [TransactionParser.extractOpReturnData, h1, h2]
  · intro b rest h
    have hb1 : ¬(1 ≤ b ∧ b ≤ 0x4b) := by omega
    have hb2 : b ≠ 0x4c := by omega
    have hb3 : b ≠ 0x4d := by omega
    have hb4 : b ≠ 0x4e := by omega
    simp [TransactionParser.extractOpReturnData, hb1, hb2, hb3, hb4]

/-- C6 amended, witness: a direct push with trailing data and a script
not starting with `0x6a`, evaluated concretely. -/
theorem extractOpReturnData_returns_tail_witness :
    TransactionParser.extractOpReturnData [0x6a, 0x03, 0x07, 0x08, 0x09] = some [0x07, 0x08, 0x09] ∧
    TransactionParser.extractOpReturnData [0x00, 0x6a] = none :=
  ⟨extractOpReturnData_returns_tail.2.2.2.1 3 [0x07, 0x08, 0x09] (by decide) (by decide),
   extractOpReturnData_returns_tail.2.1 [0x00, 0x6a] (by decide)⟩

/-- C7: with one registered callback that throws, `evaluateTransaction`
propagates the exception instead of catching it — no `FilterVerdict` is
returned, contradicting the specified error-handling design. -/
theorem throwing_callback_aborts_evaluation :
    FilterEngine.evaluateTransaction
      ⟨⟨50, true, true⟩, [fun _ => .error "callback exception"]⟩ txN =
      .error "callback exception" := rfl

/-- C10: the fake-pubkey count of the witness-script analysis never
exceeds the pubkey count: every `0x21` push contributes a candidate to
the pubkey count, but a candidate is counted fake only when it is exactly
33 bytes with first byte `0x02` or `0x03` — a candidate cut short by
truncation, or with another first byte, is never fake. -/
theorem fakePubkeyCount_le_pubkeyCount :
    (∀ script : List Nat,
      (P2WSHFakeMultisigDetector.analyzeWitnessScript script).fakePubkeyCount ≤
        (P2WSHFakeMultisigDetector.analyzeWitnessScript script).pubkeyCount) ∧
    (∀ pk : List Nat, pk.length ≠ 33 →
      P2WSHFakeMultisigDetector.isLikelyFakePubkey pk = false) ∧
    (∀ pk : List Nat, pk.getD 0 0 ≠ 2 → pk.getD 0 0 ≠ 3 →
      P2WSHFakeMultisigDetector.isLikelyFakePubkey pk = false) := by
  refine ⟨?_, ?_, ?_⟩
  · intro script
    simp only [P2WSHFakeMultisigDetector.analyzeWitnessScript]
    split_ifs <;> simp [countFake_le]
  · intro pk h
    unfold P2WSHFakeMultisigDetector.isLikelyFakePubkey
    rw [if_pos h]
  · intro pk h2 h3
    simp only [P2WSHFakeMultisigDetector.isLikelyFakePubkey]
    split_ifs with ha hb hz
    · rfl
    · rfl
    · exact absurd ⟨h2, h3⟩ hb
    · exact absurd ⟨h2, h3⟩ hb

set_option maxRecDepth 400000 in
/-- C3: a 33-byte candidate with first byte `0x02`/`0x03` is fake exactly
when its 32 data bytes have a zero run longer than 4, more than 10 zeros,
or more than 2 repeated-4-byte windows; an input is suspicious exactly
when (pubkey count > 3 and fake count > 50% of pubkey count) or pubkey
count > 10; in particular three all-fake pubkeys are not suspicious and
eleven authentic-looking pubkeys are suspicious on count alone. -/
theorem fake_classification_and_suspicion :
    (∀ pk : List Nat, pk.length = 33 → (pk.getD 0 0 = 2 ∨ pk.getD 0 0 = 3) →
      (P2WSHFakeMultisigDetector.isLikelyFakePubkey pk = true ↔
        (4 < (P2WSHFakeMultisigDetector.zeroStats (pk.drop 1) 0 0 0).2 ∨
         10 < (P2WSHFakeMultisigDetector.zeroStats (pk.drop 1) 0 0 0).1 ∨
         2 < P2WSHFakeMultisigDetector.repeatCount (pk.drop 1)))) ∧
    (∀ script : List Nat,
      ((P2WSHFakeMultisigDetector.analyzeWitnessScript script).isSuspicious = true ↔
        ((3 < (P2WSHFakeMultisigDetector.analyzeWitnessScript script).pubkeyCount ∧
          (P2WSHFakeMultisigDetector.analyzeWitnessScript script).pubkeyCount <
            2 * (P2WSHFakeMultisigDetector.analyzeWitnessScript script).fakePubkeyCount) ∨
         10 < (P2WSHFakeMultisigDetector.analyzeWitnessScript script).pubkeyCount))) ∧
    ((P2WSHFakeMultisigDetector.analyzeWitnessScript susp3Script).isSuspicious = false ∧
     (P2WSHFakeMultisigDetector.analyzeWitnessScript susp3Script).pubkeyCount = 3 ∧
     (P2WSHFakeMultisigDetector.analyzeWitnessScript susp3Script).fakePubkeyCount = 3) ∧
    ((P2WSHFakeMultisigDetector.analyzeWitnessScript big11Script).isSuspicious = true ∧
     (P2WSHFakeMultisigDetector.analyzeWitnessScript big11Script).pubkeyCount = 11 ∧
     (P2WSHFakeMultisigDetector.analyzeWitnessScript big11Script).fakePubkeyCount = 0) := by
  refine ⟨?_, ?_,
    ⟨by rw [isSuspicious_eq]; decide, by decide, by decide⟩,
    ⟨by rw [isSuspicious_eq]; decide, by decide, by decide⟩⟩
  · intro pk h33 hpfx
    have hne : ¬pk.length ≠ 33 := by omega
    have hp : ¬(pk.getD 0 0 ≠ 2 ∧ pk.getD 0 0 ≠ 3) := by tauto
    simp only [P2WSHFakeMultisigDetector.isLikelyFakePubkey, if_neg hne, if_neg hp]
    split_ifs with hz
    · simp only [true_iff]
      tauto
    · simp only [decide_eq_true_iff]
      constructor
      · intro h
        exact Or.inr (Or.inr h)
      · rintro (h | h | h)
        · exact absurd (Or.inl h) hz
        · exact absurd (Or.inr h) hz
        · exact h
  · intro script
    simp only [P2WSHFakeMultisigDetector.analyzeWitnessScript]
    split_ifs with h0 hae
    · simp
    · simp
    · simp only [decide_eq_true_iff, half_lt_iff]

/-- C3 witness: the all-zero candidate, evaluated concretely through the
classification rule. -/
theorem fake_classification_and_suspicion_witness :
    P2WSHFakeMultisigDetector.isLikelyFakePubkey ([2, 0, 0, 0, 0, 0, 0, 0, 0, 0, 0, 0, 0, 0, 0, 0, 0, 0, 0, 0, 0, 0, 0, 0, 0, 0, 0, 0, 0, 0, 0, 0, 0]) = true :=
  (fake_classification_and_suspicion.1 ([2, 0, 0, 0, 0, 0, 0, 0, 0, 0, 0, 0, 0, 0, 0, 0, 0, 0, 0, 0, 0, 0, 0, 0, 0, 0, 0, 0, 0, 0, 0, 0, 0])
    (by decide) (by decide)).mpr (by decide)

/-- C10 witness: a truncated 3-byte candidate and a candidate with first
byte `0x05` are never counted fake, and the analysis of a concrete script
keeps the fake count at or below the pubkey count. -/
theorem fakePubkeyCount_le_pubkeyCount_witness :
    P2WSHFakeMultisigDetector.isLikelyFakePubkey [0x02, 0x00, 0x00] = false ∧
    P2WSHFakeMultisigDetector.isLikelyFakePubkey ([5, 0, 0, 0, 0, 0, 0, 0, 0, 0, 0, 0, 0, 0, 0, 0, 0, 0, 0, 0, 0, 0, 0, 0, 0, 0, 0, 0, 0, 0, 0, 0, 0]) = false ∧
    (P2WSHFakeMultisigDetector.analyzeWitnessScript suspScript).fakePubkeyCount ≤
      (P2WSHFakeMultisigDetector.analyzeWitnessScript suspScript).pubkeyCount :=
  ⟨fakePubkeyCount_le_pubkeyCount.2.1 [0x02, 0x00, 0x00] (by decide),
   fakePubkeyCount_le_pubkeyCount.2.2 ([5, 0, 0, 0, 0, 0, 0, 0, 0, 0, 0, 0, 0, 0, 0, 0, 0, 0, 0, 0, 0, 0, 0, 0, 0, 0, 0, 0, 0, 0, 0, 0, 0]) (by decide) (by decide),
   fakePubkeyCount_le_pubkeyCount.1 suspScript⟩

theorem inputSuspicious_implies_qualifies (inp : TransactionInput) :
    inputSuspicious inp = true → qualifiesWitness inp = true := by
  intro h
  unfold inputSuspicious at h
  unfold qualifiesWitness
  rcases hw : inp.witness with _ | w
  · rw [hw] at h
    simp at h
  · rw [hw] at h
    by_cases hl : w.length < 3
    · simp [hl] at h
    · simp
      omega

theorem detectLoop_counts :
    ∀ (l : List TransactionInput) (s t : Nat) (d : List (String × Nat × Nat × Nat)),
      (P2WSHFakeMultisigDetector.detectLoop l s t d).1 =
        s + l.countP inputSuspicious ∧
      (P2WSHFakeMultisigDetector.detectLoop l s t d).2.1 =
        t + l.countP qualifiesWitness := by
  intro l
  induction l with
  | nil =>
    intro s t d
    simp [P2WSHFakeMultisigDetector.detectLoop]
  | cons inp rest ih =>
    intro s t d
    rcases hw : inp.witness with _ | w
    · have hq : qualifiesWitness inp = false := by
        unfold qualifiesWitness
        rw [hw]
      have hs : inputSuspicious inp = false := by
        unfold inputSuspicious
        rw [hw]
      simp only [P2WSHFakeMultisigDetector.detectLoop, hw, List.countP_cons, hq, hs,
        if_false, Nat.add_zero, Bool.false_eq_true]
      simpa using ih s t d
    · by_cases hl : w.length < 3
      · have hq : qualifiesWitness inp = false := by
          unfold qualifiesWitness
          rw [hw]
          simp only [decide_eq_false_iff_not]
          omega
        have hs : inputSuspicious inp = false := by
          unfold inputSuspicious
          rw [hw]
          simp [hl]
        simp only [P2WSHFakeMultisigDetector.detectLoop, hw, if_pos hl, List.countP_cons,
          hq, hs, if_false, Nat.add_zero, Bool.false_eq_true]
        simpa using ih s t d
      · have hq : qualifiesWitness inp = true := by
          unfold qualifiesWitness
          rw [hw]
          simp only [decide_eq_true_eq]
          omega
        have hne : ¬ w.length = 0 := by omega
        have hext : TransactionParser.extractWitnessScript w =
            some (w.getD (w.length - 1) []) := by
          unfold TransactionParser.extractWitnessScript
          rw [if_neg hne]
        have hsusp : inputSuspicious inp =
            (P2WSHFakeMultisigDetector.analyzeWitnessScript
              (w.getD (w.length - 1) [])).isSuspicious := by
          unfold inputSuspicious
          rw [hw]
          simp [hl, hext]
        rcases hflag : (P2WSHFakeMultisigDetector.analyzeWitnessScript
            (w.getD (w.length - 1) [])).isSuspicious with _ | _
        · have hs : inputSuspicious inp = false := by rw [hsusp, hflag]
          simp only [P2WSHFakeMultisigDetector.detectLoop, hw, if_neg hl, hext, hflag,
            List.countP_cons, hq, hs, if_false, Nat.add_zero, if_true,
            Bool.false_eq_true]
          obtain ⟨ih1, ih2⟩ := ih s (t + 1) d
          refine ⟨by rw [ih1], by rw [ih2]; omega⟩
        · have hs : inputSuspicious inp = true := by rw [hsusp, hflag]
          simp only [P2WSHFakeMultisigDetector.detectLoop, hw, if_neg hl, hext, hflag,
            List.countP_cons, hq, hs, if_true]
          obtain ⟨ih1, ih2⟩ :=
            ih (s + 1) (t + 1) (d ++ [(inp.txid, inp.vout,
              (P2WSHFakeMultisigDetector.analyzeWitnessScript
                (w.getD (w.length - 1) [])).pubkeyCount,
              (P2WSHFakeMultisigDetector.analyzeWitnessScript
                (w.getD (w.length - 1) [])).fakePubkeyCount)])
          refine ⟨by rw [ih1]; omega, by rw [ih2]; omega⟩

theorem susp_le_total (tx : ParsedTransaction) :
    suspiciousInputCount tx ≤ totalP2WSHCount tx :=
  List.countP_mono_left (fun x _ hx => inputSuspicious_implies_qualifies x hx)

/-- `detect` characterised by the two spec-side counters: detected exactly
when some input is suspicious, and the confidence is the exact rational
`100 × suspicious / total` with the denominator counting every input that
has at least three witness items. -/
theorem detect_char (tx : ParsedTransaction) :
    (P2WSHFakeMultisigDetector.detect tx).detected =
      decide (0 < suspiciousInputCount tx) ∧
    (P2WSHFakeMultisigDetector.detect tx).confidence =
      (if suspiciousInputCount tx = 0 then 0
       else ((suspiciousInputCount tx : ℚ) / (totalP2WSHCount tx : ℚ)) * 100) := by
  have h1 : (P2WSHFakeMultisigDetector.detectLoop tx.inputs 0 0 []).1 =
      suspiciousInputCount tx := by
    rw [(detectLoop_counts tx.inputs 0 0 []).1]
    simp [suspiciousInputCount]
  have h2 : (P2WSHFakeMultisigDetector.detectLoop tx.inputs 0 0 []).2.1 =
      totalP2WSHCount tx := by
    rw [(detectLoop_counts tx.inputs 0 0 []).2]
    simp [totalP2WSHCount]
  by_cases hs : suspiciousInputCount tx = 0
  · simp [P2WSHFakeMultisigDetector.detect, h1, h2, hs]
  · have hpos : 0 < suspiciousInputCount tx := Nat.pos_of_ne_zero hs
    have htpos : 0 < totalP2WSHCount tx := lt_of_lt_of_le hpos (susp_le_total tx)
    simp [P2WSHFakeMultisigDetector.detect, h1, h2, hs, hpos, htpos]

theorem p2wsh_confidence_bounds (tx : ParsedTransaction) :
    0 ≤ (P2WSHFakeMultisigDetector.detect tx).confidence ∧
    (P2WSHFakeMultisigDetector.detect tx).confidence ≤ 100 := by
  rw [(detect_char tx).2]
  by_cases hs : suspiciousInputCount tx = 0
  · simp [hs]
  · have hpos : 0 < suspiciousInputCount tx := Nat.pos_of_ne_zero hs
    have htpos : 0 < totalP2WSHCount tx := lt_of_lt_of_le hpos (susp_le_total tx)
    have htq : (0 : ℚ) < (totalP2WSHCount tx : ℚ) := by exact_mod_cast htpos
    rw [if_neg hs]
    constructor
    · positivity
    · have hle : ((suspiciousInputCount tx : ℚ) / (totalP2WSHCount tx : ℚ)) ≤ 1 := by
        rw [div_le_one htq]
        exact_mod_cast susp_le_total tx
      linarith

/-- C2 amended: the detector reports `detected = (suspiciousInputCount >
0)` and an aggregate confidence equal to the exact rational `100 ×
(suspiciousInputCount / totalP2WSHInputCount)` — not rounded down — where
the denominator counts every input with at least 3 witness items,
including those whose candidate witness script fails the final-byte-`0xae`
test; such inputs are never suspicious themselves, but they are counted
in the denominator. -/
theorem p2wsh_confidence_formula :
    (∀ tx : ParsedTransaction,
      (P2WSHFakeMultisigDetector.detect tx).detected =
        decide (0 < suspiciousInputCount tx) ∧
      (P2WSHFakeMultisigDetector.detect tx).confidence =
        (if suspiciousInputCount tx = 0 then 0
         else ((suspiciousInputCount tx : ℚ) / (totalP2WSHCount tx : ℚ)) * 100) ∧
      suspiciousInputCount tx ≤ totalP2WSHCount tx) ∧
    (∀ script : List Nat, script.getD (script.length - 1) 0 ≠ 0xae →
      (P2WSHFakeMultisigDetector.analyzeWitnessScript script).isSuspicious = false ∧
      (P2WSHFakeMultisigDetector.analyzeWitnessScript script).hasCheckmultisig = false) := by
  constructor
  · intro tx
    exact ⟨(detect_char tx).1, (detect_char tx).2, susp_le_total tx⟩
  · intro script hae
    simp only [P2WSHFakeMultisigDetector.analyzeWitnessScript]
    split_ifs with h0
    · exact ⟨rfl, rfl⟩
    · exact ⟨rfl, rfl⟩

/-- C2 amended, witness: a one-byte witness script ending `0xab` is
neither CHECKMULTISIG-shaped nor suspicious. -/
theorem p2wsh_confidence_formula_witness :
    (P2WSHFakeMultisigDetector.analyzeWitnessScript [0xab]).isSuspicious = false ∧
    (P2WSHFakeMultisigDetector.analyzeWitnessScript [0xab]).hasCheckmultisig = false :=
  p2wsh_confidence_formula.2 [0xab] (by decide)

set_option maxRecDepth 400000 in
/-- C2 counterexample: `tx3` has one suspicious CHECKMULTISIG input plus
two inputs with three witness items whose last item does not end `0xae`.
The code counts all three inputs in the denominator and does not round,
yielding confidence `100/3`; the claim predicts `⌊100 × 1/1⌋ = 100`
(non-CHECKMULTISIG-shaped inputs excluded from the population) — and in
any reading an integer, which `100/3` is not. -/
theorem p2wsh_confidence_not_floored :
    (P2WSHFakeMultisigDetector.detect tx3).confidence = 100 / 3 ∧
    (100 / 3 : ℚ) ≠ 100 ∧ (100 / 3 : ℚ) ≠ 33 ∧
    suspiciousInputCount tx3 = 1 ∧ totalP2WSHCount tx3 = 3 ∧
    (P2WSHFakeMultisigDetector.analyzeWitnessScript [0xab]).hasCheckmultisig = false := by
  have h1 : inputSuspicious inpSusp = true := by
    have he : inputSuspicious inpSusp =
        (P2WSHFakeMultisigDetector.analyzeWitnessScript suspScript).isSuspicious := rfl
    rw [he, isSuspicious_eq]
    decide
  have h2 : inputSuspicious inpPlain = false := by
    have he : inputSuspicious inpPlain =
        (P2WSHFakeMultisigDetector.analyzeWitnessScript [0xab]).isSuspicious := rfl
    rw [he, isSuspicious_eq]
    decide
  have hs : suspiciousInputCount tx3 = 1 := by
    simp [suspiciousInputCount, tx3, List.countP_cons, h1, h2]
  have ht : totalP2WSHCount tx3 = 3 := by decide
  refine ⟨?_, by norm_num, by norm_num, hs, ht, by decide⟩
  rw [(detect_char tx3).2, hs, ht]
  norm_num

/-- C5 counterexample: `tx5` has a single output whose script begins
`0x6a` with a 100-byte payload but whose `scriptPubKeyType` tag is
absent; the claim says the detector still collects it by byte-level
sniffing (and would then flag the oversize payload), but the code
collects nothing and reports not detected. -/
theorem opreturn_untagged_not_collected :
    out5.scriptPubKey.getD 0 0 = 0x6a ∧
    out5.scriptPubKeyType = none ∧
    (TransactionParser.extractOpReturnData out5.scriptPubKey).map List.length = some 100 ∧
    (ChainedOpReturnDetector.opReturnOutputs tx5).length = 0 ∧
    (ChainedOpReturnDetector.detect tx5).detected = false ∧
    (ChainedOpReturnDetector.detect tx5).confidence = 0 := by
  refine ⟨by decide, rfl, by decide, by decide, by decide, by decide⟩

/-- C5 amended: the detector collects exactly the outputs whose
`scriptPubKeyType` tag equals the OP_RETURN classification (`nulldata`);
it never sniffs `scriptPubKey` bytes itself (first-byte-`0x6a` sniffing
happens only in the hex parser's type classification), so an untagged
output is not collected even when its script begins `0x6a`; when no
output carries the tag the result is detected = false, confidence 0. -/
theorem opreturn_collects_only_tagged :
    (∀ (tx : ParsedTransaction) (o : TransactionOutput),
      o ∈ ChainedOpReturnDetector.opReturnOutputs tx ↔
        o ∈ tx.outputs ∧ o.scriptPubKeyType = some "nulldata") ∧
    (∀ tx : ParsedTransaction,
      (∀ o ∈ tx.outputs, o.scriptPubKeyType ≠ some "nulldata") →
      (ChainedOpReturnDetector.detect tx).detected = false ∧
      (ChainedOpReturnDetector.detect tx).confidence = 0) := by
  constructor
  · intro tx o
    simp [ChainedOpReturnDetector.opReturnOutputs, List.mem_filter]
  · intro tx h
    have hempty : ChainedOpReturnDetector.opReturnOutputs tx = [] := by
      unfold ChainedOpReturnDetector.opReturnOutputs
      rw [List.filter_eq_nil_iff]
      intro o ho
      simpa using h o ho
    simp [ChainedOpReturnDetector.detect, hempty]

/-- C5 amended, witness: a transaction whose only output carries no
`nulldata` tag is not detected. -/
theorem opreturn_collects_only_tagged_witness :
    (ChainedOpReturnDetector.detect txN).detected = false ∧
    (ChainedOpReturnDetector.detect txN).confidence = 0 :=
  opreturn_collects_only_tagged.2 txN (by decide)

theorem scanMagic_fst :
    ∀ (l : List TransactionOutput) (m : Bool) (c : Option (Nat × Nat)),
      (ChainedOpReturnDetector.scanMagic l m c).1 = (m || l.any isMagicOutput) := by
  intro l
  induction l with
  | nil =>
    intro m c
    simp [ChainedOpReturnDetector.scanMagic]
  | cons o rest ih =>
    intro m c
    unfold ChainedOpReturnDetector.scanMagic
    cases hd : TransactionParser.extractOpReturnData o.scriptPubKey with
    | none =>
      have hmo : isMagicOutput o = false := by
        unfold isMagicOutput
        rw [hd]
      simp [ih, hmo, -List.getD_eq_getElem?_getD]
    | some d =>
      by_cases hmag : 2 ≤ d.length ∧ d.getD 0 0 = 0x01 ∧ d.getD 1 0 = 0xbc
      · have hmo : isMagicOutput o = true := by
          unfold isMagicOutput
          rw [hd]
          simp [hmag, -List.getD_eq_getElem?_getD]
        by_cases h4 : 4 ≤ d.length
        · simp [hmag, h4, ih, hmo, -List.getD_eq_getElem?_getD]
        · simp [hmag, h4, ih, hmo, -List.getD_eq_getElem?_getD]
      · have hmo : isMagicOutput o = false := by
          unfold isMagicOutput
          rw [hd]
          simp [hmag, -List.getD_eq_getElem?_getD]
        simp [hmag, ih, hmo, -List.getD_eq_getElem?_getD]

theorem scanMagic_isSome :
    ∀ (l : List TransactionOutput) (m : Bool) (c : Option (Nat × Nat)),
      (ChainedOpReturnDetector.scanMagic l m c).2.isSome =
        (c.isSome || l.any chunkEligible) := by
  intro l
  induction l with
  | nil =>
    intro m c
    simp [ChainedOpReturnDetector.scanMagic]
  | cons o rest ih =>
    intro m c
    unfold ChainedOpReturnDetector.scanMagic
    cases hd : TransactionParser.extractOpReturnData o.scriptPubKey with
    | none =>
      have hce : chunkEligible o = false := by
        unfold chunkEligible
        rw [hd]
      simp [ih, hce, -List.getD_eq_getElem?_getD]
    | some d =>
      by_cases hmag : 2 ≤ d.length ∧ d.getD 0 0 = 0x01 ∧ d.getD 1 0 = 0xbc
      · by_cases h4 : 4 ≤ d.length
        · have hce : chunkEligible o = true := by
            unfold chunkEligible
            rw [hd]
            simp [hmag, h4, -List.getD_eq_getElem?_getD]
          simp [hmag, h4, ih, hce, -List.getD_eq_getElem?_getD]
        · have hce : chunkEligible o = false := by
            unfold chunkEligible
            rw [hd]
            simp [h4, -List.getD_eq_getElem?_getD]
          simp [hmag, h4, ih, hce, -List.getD_eq_getElem?_getD]
      · have hce : chunkEligible o = false := by
          unfold chunkEligible
          rw [hd]
          simp [-List.getD_eq_getElem?_getD]
          tauto
        simp [hmag, ih, hce, -List.getD_eq_getElem?_getD]

theorem scanMagic_snd_spec :
    ∀ (l : List TransactionOutput) (m : Bool) (c : Option (Nat × Nat)) (p : Nat × Nat),
      (ChainedOpReturnDetector.scanMagic l m c).2 = some p →
      c = some p ∨
        ∃ o ∈ l, ∃ d, TransactionParser.extractOpReturnData o.scriptPubKey = some d ∧
          d.getD 0 0 = 0x01 ∧ d.getD 1 0 = 0xbc ∧ 4 ≤ d.length ∧
          d.getD 2 0 = p.1 ∧ d.getD 3 0 = p.2 := by
  intro l
  induction l with
  | nil =>
    intro m c p h
    exact Or.inl (by simpa [ChainedOpReturnDetector.scanMagic] using h)
  | cons o rest ih =>
    intro m c p h
    unfold ChainedOpReturnDetector.scanMagic at h
    split at h
    · rcases ih _ _ _ h with hc | ⟨o2, ho2, hrest⟩
      · exact Or.inl hc
      · exact Or.inr ⟨o2, List.mem_cons_of_mem o ho2, hrest⟩
    next d hd =>
      split at h
      next hmag =>
        split at h
        next h4 =>
          rcases ih _ _ _ h with hc | ⟨o2, ho2, hrest⟩
          · refine Or.inr ⟨o, List.mem_cons_self o rest, d, hd, hmag.2.1, hmag.2.2, h4, ?_, ?_⟩
            · exact congrArg Prod.fst (Option.some.inj hc)
            · exact congrArg Prod.snd (Option.some.inj hc)
          · exact Or.inr ⟨o2, List.mem_cons_of_mem o ho2, hrest⟩
        next h4 =>
          rcases ih _ _ _ h with hc | ⟨o2, ho2, hrest⟩
          · exact Or.inl hc
          · exact Or.inr ⟨o2, List.mem_cons_of_mem o ho2, hrest⟩
      next hmag =>
        rcases ih _ _ _ h with hc | ⟨o2, ho2, hrest⟩
        · exact Or.inl hc
        · exact Or.inr ⟨o2, List.mem_cons_of_mem o ho2, hrest⟩

/-- C4 amended: for a transaction with at least one collected OP_RETURN
output, the result follows the first match in priority order — magic
prefix gives confidence 95 (with chunk bookkeeping recorded exactly when
some magic payload has length ≥ 4, holding its 3rd and 4th bytes);
otherwise the continuation pattern, which additionally requires the
transaction to have at least two outputs, gives 60; otherwise a largest
payload above 80 bytes gives 40; otherwise not detected with confidence
0. -/
theorem opreturn_priority_order :
    ∀ tx : ParsedTransaction,
      0 < (ChainedOpReturnDetector.opReturnOutputs tx).length →
      ((hasMagicPayload tx = true →
        (ChainedOpReturnDetector.detect tx).detected = true ∧
        (ChainedOpReturnDetector.detect tx).confidence = 95 ∧
        ((chunkOf (ChainedOpReturnDetector.detect tx)).isSome =
          (ChainedOpReturnDetector.opReturnOutputs tx).any chunkEligible) ∧
        (∀ p : Nat × Nat, chunkOf (ChainedOpReturnDetector.detect tx) = some p →
          ∃ o ∈ ChainedOpReturnDetector.opReturnOutputs tx,
            ∃ d, TransactionParser.extractOpReturnData o.scriptPubKey = some d ∧
              d.getD 0 0 = 0x01 ∧ d.getD 1 0 = 0xbc ∧ 4 ≤ d.length ∧
              d.getD 2 0 = p.1 ∧ d.getD 3 0 = p.2)) ∧
      (hasMagicPayload tx = false → hasContinuation tx = true →
        (ChainedOpReturnDetector.detect tx).detected = true ∧
        (ChainedOpReturnDetector.detect tx).confidence = 60) ∧
      (hasMagicPayload tx = false → hasContinuation tx = false →
        80 < ChainedOpReturnDetector.largestOpReturn (ChainedOpReturnDetector.opReturnOutputs tx) →
        (ChainedOpReturnDetector.detect tx).detected = true ∧
        (ChainedOpReturnDetector.detect tx).confidence = 40) ∧
      (hasMagicPayload tx = false → hasContinuation tx = false →
        ChainedOpReturnDetector.largestOpReturn (ChainedOpReturnDetector.opReturnOutputs tx) ≤ 80 →
        (ChainedOpReturnDetector.detect tx).detected = false ∧
        (ChainedOpReturnDetector.detect tx).confidence = 0)) := by
  intro tx hors
  have hlen0 : ¬ (ChainedOpReturnDetector.opReturnOutputs tx).length = 0 := by omega
  have hmagicEq : (ChainedOpReturnDetector.scanMagic
      (ChainedOpReturnDetector.opReturnOutputs tx) false none).1 = hasMagicPayload tx := by
    rw [scanMagic_fst]
    simp [hasMagicPayload]
  have hcont_iff : hasContinuation tx = true ↔
      (2 ≤ tx.outputs.length ∧
        (tx.outputs.any fun o => decide (0 < o.value ∧ o.value < 15000)) = true) := by
    simp [hasContinuation]
  refine ⟨?_, ?_, ?_, ?_⟩
  · intro hm
    have hcond : (ChainedOpReturnDetector.scanMagic
        (ChainedOpReturnDetector.opReturnOutputs tx) false none).1 = true ∨
        ((2 ≤ tx.outputs.length ∧
          (tx.outputs.any fun o => decide (0 < o.value ∧ o.value < 15000)) = true) ∧
          0 < (ChainedOpReturnDetector.opReturnOutputs tx).length) :=
      Or.inl (hmagicEq.trans hm)
    refine ⟨?_, ?_, ?_, ?_⟩
    · simp only [ChainedOpReturnDetector.detect]
      rw [if_neg hlen0, if_pos hcond]
    · simp only [ChainedOpReturnDetector.detect]
      rw [if_neg hlen0, if_pos hcond]
      simp [hmagicEq, hm]
    · simp only [ChainedOpReturnDetector.detect, chunkOf]
      rw [if_neg hlen0, if_pos hcond]
      simp only [scanMagic_isSome]
      simp
    · intro p hp
      simp only [ChainedOpReturnDetector.detect, chunkOf] at hp
      rw [if_neg hlen0, if_pos hcond] at hp
      simp only at hp
      rcases scanMagic_snd_spec _ _ _ _ hp with hc | hex
      · exact absurd hc (by simp)
      · exact hex
  · intro hm hc
    have hmfalse : (ChainedOpReturnDetector.scanMagic
        (ChainedOpReturnDetector.opReturnOutputs tx) false none).1 = false :=
      hmagicEq.trans hm
    have hcond : (ChainedOpReturnDetector.scanMagic
        (ChainedOpReturnDetector.opReturnOutputs tx) false none).1 = true ∨
        ((2 ≤ tx.outputs.length ∧
          (tx.outputs.any fun o => decide (0 < o.value ∧ o.value < 15000)) = true) ∧
          0 < (ChainedOpReturnDetector.opReturnOutputs tx).length) :=
      Or.inr ⟨hcont_iff.mp hc, hors⟩
    constructor
    · simp only [ChainedOpReturnDetector.detect]
      rw [if_neg hlen0, if_pos hcond]
    · simp only [ChainedOpReturnDetector.detect]
      rw [if_neg hlen0, if_pos hcond]
      simp [hmfalse]
  · intro hm hc hbig
    have hmfalse : (ChainedOpReturnDetector.scanMagic
        (ChainedOpReturnDetector.opReturnOutputs tx) false none).1 = false :=
      hmagicEq.trans hm
    have hncond : ¬ ((ChainedOpReturnDetector.scanMagic
        (ChainedOpReturnDetector.opReturnOutputs tx) false none).1 = true ∨
        ((2 ≤ tx.outputs.length ∧
          (tx.outputs.any fun o => decide (0 < o.value ∧ o.value < 15000)) = true) ∧
          0 < (ChainedOpReturnDetector.opReturnOutputs tx).length)) := by
      rintro (h | ⟨hpair, _⟩)
      · rw [hmfalse] at h
        exact Bool.false_ne_true h
      · rw [hcont_iff.mpr hpair] at hc
        exact absurd hc (by decide)
    constructor
    · simp only [ChainedOpReturnDetector.detect]
      rw [if_neg hlen0, if_neg hncond, if_pos hbig]
    · simp only [ChainedOpReturnDetector.detect]
      rw [if_neg hlen0, if_neg hncond, if_pos hbig]
  · intro hm hc hsmall
    have hmfalse : (ChainedOpReturnDetector.scanMagic
        (ChainedOpReturnDetector.opReturnOutputs tx) false none).1 = false :=
      hmagicEq.trans hm
    have hncond : ¬ ((ChainedOpReturnDetector.scanMagic
        (ChainedOpReturnDetector.opReturnOutputs tx) false none).1 = true ∨
        ((2 ≤ tx.outputs.length ∧
          (tx.outputs.any fun o => decide (0 < o.value ∧ o.value < 15000)) = true) ∧
          0 < (ChainedOpReturnDetector.opReturnOutputs tx).length)) := by
      rintro (h | ⟨hpair, _⟩)
      · rw [hmfalse] at h
        exact Bool.false_ne_true h
      · rw [hcont_iff.mpr hpair] at hc
        exact absurd hc (by decide)
    have hnbig : ¬ 80 < ChainedOpReturnDetector.largestOpReturn (ChainedOpReturnDetector.opReturnOutputs tx) := by
      omega
    constructor
    · simp only [ChainedOpReturnDetector.detect]
      rw [if_neg hlen0, if_neg hncond, if_neg hnbig]
    · simp only [ChainedOpReturnDetector.detect]
      rw [if_neg hlen0, if_neg hncond, if_neg hnbig]

/-- C4 amended, witness: the spec's own example payload `01 bc 00 0a`
behind `6a 04` is detected with confidence exactly 95. -/
theorem opreturn_priority_order_witness :
    (ChainedOpReturnDetector.detect tx6).detected = true ∧
    (ChainedOpReturnDetector.detect tx6).confidence = 95 :=
  have h := ((opreturn_priority_order tx6 (by decide)).1 (by decide))
  ⟨h.1, h.2.1⟩

/-- C4 counterexample: `tx4` has exactly one output — a collected
OP_RETURN output valued 5000 satoshis, no magic prefix, payload of 2
bytes.  The claim's continuation rule (any output valued strictly between
0 and 15000) predicts detected = true with confidence 60, but the code
additionally requires at least two outputs and reports not detected. -/
theorem opreturn_single_output_continuation_missed :
    tx4.outputs.length = 1 ∧
    (tx4.outputs.any fun o => decide (0 < o.value ∧ o.value < 15000)) = true ∧
    (ChainedOpReturnDetector.opReturnOutputs tx4).length = 1 ∧
    hasMagicPayload tx4 = false ∧
    (ChainedOpReturnDetector.detect tx4).detected = false ∧
    (ChainedOpReturnDetector.detect tx4).confidence = 0 := by
  refine ⟨rfl, by decide, by decide, by decide, by decide, by decide⟩

theorem applyJSFilters_pure (tx : ParsedTransaction) :
    ∀ (fs : List (ParsedTransaction → FilterResult)) (ds : List DetectionResult) (s : ℚ),
      FilterEngine.applyJSFilters tx (fs.map liftPure) ds s =
        .ok (ds ++ wrapsOf fs tx, s + specCallbackScore fs tx) := by
  intro fs
  induction fs with
  | nil =>
    intro ds s
    simp [FilterEngine.applyJSFilters, specCallbackScore, wrapsOf]
  | cons f rest ih =>
    intro ds s
    unfold FilterEngine.applyJSFilters
    by_cases ha : (f tx).accept
    · simp [liftPure, ha, ih, wrapsOf, specCallbackScore]
    · simp [liftPure, ha, ih, wrapsOf, specCallbackScore, add_assoc]

/-- C1: with every registered callback returning a result, the verdict
satisfies `accept = (totalScore < threshold)` and the total score is the
sum of the confidences of each enabled detector whose result has
`detected = true` plus the score of every callback whose result has
`accept = false`; disabled detectors, non-detecting results, and
accepting callbacks contribute nothing. -/
theorem engine_score_decomposition :
    ∀ (cfg : FilterConfig) (fs : List (ParsedTransaction → FilterResult))
      (tx : ParsedTransaction),
      ∃ v : FilterResult,
        FilterEngine.evaluateTransaction ⟨cfg, fs.map liftPure⟩ tx = .ok v ∧
        v.accept = decide (v.score < cfg.threshold) ∧
        v.score = specDetectorScore cfg tx + specCallbackScore fs tx ∧
        v.detections =
          (if cfg.enableP2WSHDetection ∧ (P2WSHFakeMultisigDetector.detect tx).detected
           then [P2WSHFakeMultisigDetector.detect tx] else []) ++
          (if cfg.enableOpReturnDetection ∧ (ChainedOpReturnDetector.detect tx).detected
           then [ChainedOpReturnDetector.detect tx] else []) ++
          wrapsOf fs tx := by
  intro cfg fs tx
  simp only [FilterEngine.evaluateTransaction]
  rw [applyJSFilters_pure]
  refine ⟨_, rfl, ?_, ?_, ?_⟩
  · rw [← decide_not]
    exact decide_eq_decide.mpr not_le
  · by_cases h1 : cfg.enableP2WSHDetection <;>
      by_cases h2 : (P2WSHFakeMultisigDetector.detect tx).detected <;>
        by_cases h3 : cfg.enableOpReturnDetection <;>
          by_cases h4 : (ChainedOpReturnDetector.detect tx).detected <;>
            simp [specDetectorScore, h1, h2, h3, h4]
  · by_cases h1 : cfg.enableP2WSHDetection <;>
      by_cases h2 : (P2WSHFakeMultisigDetector.detect tx).detected <;>
        by_cases h3 : cfg.enableOpReturnDetection <;>
          by_cases h4 : (ChainedOpReturnDetector.detect tx).detected <;>
            simp [h1, h2, h3, h4]

theorem opreturn_confidence_bounds (tx : ParsedTransaction) :
    0 ≤ (ChainedOpReturnDetector.detect tx).confidence ∧
    (ChainedOpReturnDetector.detect tx).confidence ≤ 100 := by
  simp only [ChainedOpReturnDetector.detect]
  split_ifs <;> constructor <;> norm_num

theorem applyJSFilters_mem (tx : ParsedTransaction) :
    ∀ (fs : List JSFilter) (ds : List DetectionResult) (s : ℚ)
      (ds' : List DetectionResult) (s' : ℚ),
      FilterEngine.applyJSFilters tx fs ds s = .ok (ds', s') →
      ∀ d ∈ ds', d ∈ ds ∨
        ∃ f ∈ fs, ∃ r, f tx = .ok r ∧ r.accept = false ∧
          d = ⟨true, r.score, r.message, .noDetails⟩ := by
  intro fs
  induction fs with
  | nil =>
    intro ds s ds' s' h d hd
    simp only [FilterEngine.applyJSFilters, Except.ok.injEq, Prod.mk.injEq] at h
    exact Or.inl (h.1 ▸ hd)
  | cons f rest ih =>
    intro ds s ds' s' h d hd
    unfold FilterEngine.applyJSFilters at h
    split at h
    · simp at h
    next r hf =>
      by_cases ha : r.accept
      · rw [if_pos ha] at h
        rcases ih _ _ _ _ h d hd with hin | ⟨f2, hf2, hrest⟩
        · exact Or.inl hin
        · exact Or.inr ⟨f2, List.mem_cons_of_mem f hf2, hrest⟩
      · rw [if_neg ha] at h
        rcases ih _ _ _ _ h d hd with hin | ⟨f2, hf2, hrest⟩
        · rcases List.mem_append.mp hin with hin2 | hw
          · exact Or.inl hin2
          · have hdw : d = ⟨true, r.score, r.message, .noDetails⟩ := by
              simpa using hw
            exact Or.inr ⟨f, List.mem_cons_self f rest, r, hf, by simpa using ha, hdw⟩
        · exact Or.inr ⟨f2, List.mem_cons_of_mem f hf2, hrest⟩

/-- C9 amended: every `DetectionResult` in a verdict either comes from
one of the two detectors — whose confidences always lie in `[0, 100]` —
or wraps a non-accepting callback result, in which case its confidence is
exactly the callback's score, which the engine does not clamp into
`[0, 100]`. -/
theorem detection_confidence_provenance :
    ∀ (e : FilterEngine) (tx : ParsedTransaction) (v : FilterResult),
      FilterEngine.evaluateTransaction e tx = .ok v →
      ∀ d ∈ v.detections,
        (0 ≤ d.confidence ∧ d.confidence ≤ 100) ∨
        ∃ f ∈ e.jsFilters, ∃ r, f tx = .ok r ∧ r.accept = false ∧
          d.confidence = r.score := by
  intro e tx v hv d hd
  simp only [FilterEngine.evaluateTransaction] at hv
  split at hv
  · exact absurd hv (by simp)
  next ds total happ =>
    have hveq : v = ⟨_, total, ds, _⟩ := (Except.ok.inj hv).symm
    replace hd : d ∈ ds := by
      rw [hveq] at hd
      exact hd
    rcases applyJSFilters_mem tx e.jsFilters _ _ _ _ happ d hd with
      hin | ⟨f, hf, r, hr, hacc, hdw⟩
    · left
      by_cases h1 : e.config.enableP2WSHDetection <;>
        by_cases h2 : (P2WSHFakeMultisigDetector.detect tx).detected <;>
          by_cases h3 : e.config.enableOpReturnDetection <;>
            by_cases h4 : (ChainedOpReturnDetector.detect tx).detected <;>
              simp [h1, h2, h3, h4] at hin <;>
        first
          | (rcases hin with rfl | rfl
             · exact p2wsh_confidence_bounds tx
             · exact opreturn_confidence_bounds tx)
          | (rcases hin with rfl
             first
               | exact p2wsh_confidence_bounds tx
               | exact opreturn_confidence_bounds tx)
    · right
      exact ⟨f, hf, r, hr, hacc, by rw [hdw]⟩

/-- C9 amended, witness: the verdict on `tx6` with only the OP_RETURN
detector enabled carries one detection, whose confidence lies in
`[0, 100]` (or would equal a callback score, of which there are none). -/
theorem detection_confidence_provenance_witness :
    (0 ≤ (ChainedOpReturnDetector.detect tx6).confidence ∧
      (ChainedOpReturnDetector.detect tx6).confidence ≤ 100) ∨
    ∃ f ∈ ([] : List JSFilter), ∃ r, f tx6 = .ok r ∧ r.accept = false ∧
      (ChainedOpReturnDetector.detect tx6).confidence = r.score :=
  detection_confidence_provenance ⟨⟨50, false, true⟩, []⟩ tx6 _ rfl
    (ChainedOpReturnDetector.detect tx6)
    (by simp [show (ChainedOpReturnDetector.detect tx6).detected = true from by decide])

/-- C9 counterexample: a registered callback returning `accept = false`
with score 150 produces a `DetectionResult` in the verdict's detections
whose confidence is 150, outside `[0, 100]`. -/
theorem callback_confidence_unclamped :
    ((FilterEngine.evaluateTransaction
        ⟨⟨50, false, false⟩, [fun _ => .ok ⟨false, 150, [], "custom"⟩]⟩ txN).toOption.map
      (fun v => v.detections.map (fun d => d.confidence))) = some [150] ∧
    ¬ ((150 : ℚ) ≤ 100) := by
  exact ⟨rfl, by norm_num⟩

end SpamFilter
